import Mathlib

/-!
# Verification of the Logging repository (space-vector modulator and diagnostics core)

Shallow embedding of the C sources:

* `src/unnamed/part_000` — `UpdateSpaceVector`, the space-vector PWM modulator.
  Floats are modelled as rationals (exact arithmetic).  The constant
  `RECIP_SQRT3` is defined in the missing `Setup.h`; the embedding is
  parametric in its value `r` (a floating-point approximation of 1/sqrt 3).
  Only the active code path is modelled: `SvmMethod == 1` (symmetric SVM);
  the `#if(0)` bus-clamp and deadtime blocks are excluded from the
  executable exactly as in the source.
* `src/Logs.c` — event log, real-time data log, fault latch.  The global
  variables become fields of explicit state structures; the parallel event
  arrays (`EventTime1/EventTime2/EventCode/EventData1/EventData2`) become a
  list of records.  External capabilities (`TimeStamp`, `PWM_disable`,
  signal pointers, `FLAG2ON`) are modelled as arguments or plain state
  fields.  `FaultWord` (a C `long` used as a bitmask) is modelled as a
  natural-number bitmask; the fault codes used are 0..16 (`Logs.h`).
-/

/-! ## Space-vector modulator (src/unnamed/part_000) -/

/-- Output state of `UpdateSpaceVector`: the `Svm*` globals it writes. -/
structure SvmState where
  SvmSector : ℤ
  SvmTx : ℚ
  SvmTy : ℚ
  SvmT0 : ℚ
  SvmClip : ℤ
  SvmK : ℚ
  SvmOnA : ℚ
  SvmOnB : ℚ
  SvmOnC : ℚ
deriving Repr, DecidableEq

/-- The C library function `fabs`, written so that the kernel can
evaluate it on concrete rationals. -/
def fabs (x : ℚ) : ℚ := if x < 0 then -x else x

/-- Sector selection step of `UpdateSpaceVector` (part_000 lines 30-53).
`r` is the value of the `RECIP_SQRT3` constant from the missing `Setup.h`. -/
def SvmSectorOf (r SvmAlpha SvmBeta : ℚ) : ℤ :=
  let SvmBetaSqrt3 := SvmBeta * r
  let SvmAlphaAbs := fabs SvmAlpha
  if SvmBeta ≥ 0 then
    -- Must be sector 1,2,3
    if SvmAlphaAbs < fabs SvmBetaSqrt3 then 2
    else if SvmAlpha ≥ 0 then 1 else 3
  else
    -- Must be sector 4,5,6
    if SvmAlphaAbs < fabs SvmBetaSqrt3 then 5
    else if SvmAlpha ≥ 0 then 6 else 4

/-- Active-vector on-times before overmodulation clamping
(part_000 lines 55-63): `(SvmTx, SvmTy)`. -/
def SvmTxTyPre (r SvmAlpha SvmBeta : ℚ) : ℚ × ℚ :=
  let SvmBetaSqrt3 := SvmBeta * r
  let sec := SvmSectorOf r SvmAlpha SvmBeta
  if sec = 2 ∨ sec = 5 then
    (SvmAlpha + fabs SvmBetaSqrt3, -SvmAlpha + fabs SvmBetaSqrt3)
  else
    (fabs SvmAlpha - fabs SvmBetaSqrt3, 2 * fabs SvmBetaSqrt3)

/-- Overmodulation clamp step (part_000 lines 65-77): produces the final
`(SvmTx, SvmTy, SvmT0)`.  When `T0 = 1 - Tx - Ty < 0` the active times are
rescaled by `SvmK = 1/(Tx+Ty)` and the zero time is forced to 0. -/
def SvmClipped (r SvmAlpha SvmBeta : ℚ) : ℚ × ℚ × ℚ :=
  let pre := SvmTxTyPre r SvmAlpha SvmBeta
  let t0l := 1 - pre.1 - pre.2
  if t0l < 0 then
    let k := 1 / (pre.1 + pre.2)
    (k * pre.1, k * pre.2, 0)
  else
    (pre.1, pre.2, t0l)

/-- Symmetric on-time table (part_000 lines 80-120, `SvmMethod == 1`):
the per-sector assignment of `(SvmOnA, SvmOnB, SvmOnC)` with the split
zero time `SvmT02 = SvmT0 * 0.5`, scaled by `SvmPeriod`.  The default
case yields all-zero on-times ("just for safety"). -/
def SvmOnTimes (sec : ℤ) (SvmPeriod tx ty t0 : ℚ) : ℚ × ℚ × ℚ :=
  let t02 := t0 * (1 / 2)
  if sec = 1 then (SvmPeriod * (tx + ty + t02), SvmPeriod * (ty + t02), SvmPeriod * t02)
  else if sec = 2 then (SvmPeriod * (tx + t02), SvmPeriod * (tx + ty + t02), SvmPeriod * t02)
  else if sec = 3 then (SvmPeriod * t02, SvmPeriod * (tx + ty + t02), SvmPeriod * (tx + t02))
  else if sec = 4 then (SvmPeriod * t02, SvmPeriod * (tx + t02), SvmPeriod * (tx + ty + t02))
  else if sec = 5 then (SvmPeriod * (tx + t02), SvmPeriod * t02, SvmPeriod * (tx + ty + t02))
  else if sec = 6 then (SvmPeriod * (tx + ty + t02), SvmPeriod * t02, SvmPeriod * (ty + t02))
  else (0, 0, 0)    -- just for safety, should never execute

/-- `UpdateSpaceVector` (part_000) for the active method `SvmMethod == 1`
(standard symmetric SVM).  Pure function of the inputs `SvmAlpha`,
`SvmBeta`, `SvmPeriod`, parametric in the `RECIP_SQRT3` value `r`. -/
def UpdateSpaceVector (r SvmAlpha SvmBeta SvmPeriod : ℚ) : SvmState :=
  let sec := SvmSectorOf r SvmAlpha SvmBeta
  let pre := SvmTxTyPre r SvmAlpha SvmBeta
  let t0l := 1 - pre.1 - pre.2
  let c := SvmClipped r SvmAlpha SvmBeta
  let ons := SvmOnTimes sec SvmPeriod c.1 c.2.1 c.2.2
  { SvmSector := sec
    SvmTx := c.1
    SvmTy := c.2.1
    SvmT0 := c.2.2
    SvmClip := if t0l < 0 then 1 else 0
    SvmK := if t0l < 0 then 1 / (pre.1 + pre.2) else 1
    SvmOnA := ons.1
    SvmOnB := ons.2.1
    SvmOnC := ons.2.2 }

/-! ## Event log, data log and fault latch (src/Logs.c, src/Logs.h) -/

/-- Event code `E_START` (Logs.h): CAN Start Command. -/
def E_START : ℤ := 1
/-- Event code `E_STOP` (Logs.h): CAN Stop Command. -/
def E_STOP : ℤ := 2
/-- Event code `E_RESET` (Logs.h): CAN Reset Faults Command. -/
def E_RESET : ℤ := 3
/-- Event code `E_FORCE` (Logs.h): CAN Force Fault Command. -/
def E_FORCE : ℤ := 4
/-- Event code `E_STATE` (Logs.h): State Changed. -/
def E_STATE : ℤ := 5
/-- Event code `E_PARAM` (Logs.h): Set Parameter. -/
def E_PARAM : ℤ := 6
/-- Event code `E_FAULT` (Logs.h): Fault. -/
def E_FAULT : ℤ := 7
/-- Event code `E_DATALOG` (Logs.h): Realtime Datalog triggering. -/
def E_DATALOG : ℤ := 8
/-- Event code `E_SETPOINT` (Logs.h): Speed setpoint changed. -/
def E_SETPOINT : ℤ := 9
/-- Event code `E_FLASH` (Logs.h): Load, Save, Default Params. -/
def E_FLASH : ℤ := 10
/-- Event code `E_CANBAD` (Logs.h): CANbus error occurred. -/
def E_CANBAD : ℤ := 11

/-- Fault code `F_STATE` (Logs.h, active `#else` branch): Invalid State. -/
def F_STATE : ℕ := 0
/-- Fault code `F_OVERCURRENT` (Logs.h). -/
def F_OVERCURRENT : ℕ := 1
/-- Fault code `F_SPEED` (Logs.h). -/
def F_SPEED : ℕ := 15
/-- Fault code `F_STALL` (Logs.h), the largest defined fault code. -/
def F_STALL : ℕ := 16

/-- Modelled from the spec: the machine-state enumeration values `READY`
and `FAULT` are defined in the missing `Setup.h`; only their distinctness
and identity are used by this code, so they are fixed here as arbitrary
distinct integers. -/
def READY : ℤ := 1

/-- Modelled from the spec: see `READY`. -/
def FAULT : ℤ := 6

/-- One record of the event log: the slice of the parallel arrays
`EventTime1/EventTime2/EventCode/EventData1/EventData2` at one index. -/
structure EventRec where
  time1 : ℤ
  time2 : ℤ
  code : ℤ
  data1 : ℤ
  data2 : ℚ
deriving Repr, DecidableEq

/-- The all-zero event record (the state of a slot after `InitEvents`). -/
def zeroEventRec : EventRec := ⟨0, 0, 0, 0, 0⟩

/-- State of the event log: `EventSize` (= `EVENT_SIZE`), the five parallel
arrays (as a list of records), and `EventIndex`. -/
structure EventsState where
  size : ℕ
  slots : List EventRec
  index : ℕ
deriving Repr, DecidableEq

/-- `InitEvents` (Logs.c lines 119-131): clear all slots, reset index. -/
def InitEvents (n : ℕ) : EventsState :=
  { size := n, slots := List.replicate n zeroEventRec, index := 0 }

/-- `LogEvent` (Logs.c lines 134-148).  The timestamp pair `(t1, t2)` comes
from the external `TimeStamp` capability and is passed as an argument.
Writes the record at `EventIndex`, advances the index, wraps at
`EVENT_SIZE`. -/
def LogEvent (t1 t2 : ℤ) (Code : ℤ) (Data1 : ℤ) (Data2 : ℚ)
    (es : EventsState) : EventsState :=
  let slots := es.slots.set es.index ⟨t1, t2, Code, Data1, Data2⟩
  let i := es.index + 1
  { es with slots := slots, index := if i = es.size then 0 else i }

/-- Link-time addresses of the external signals bound by `DefaultLog`
(`IdRef`, `IqRef`, ... from the surrounding firmware). -/
structure SignalAddrs where
  IdRef : ℤ
  IqRef : ℤ
  RpmRef : ℤ
  Id : ℤ
  Iq : ℤ
  RpmOut : ℤ
  VdRef : ℤ
  VqRef : ℤ
  ThetaOut : ℤ
deriving Repr, DecidableEq

/-- The whole mutable state of Logs.c: one field per global variable.
`LogBase` holds offsets into `LogBuf` (the C code stores pointers
`LogBuf + i*LogLength`), `LogPtr` holds the masked signal addresses,
`pwmEnabled`, `flag2`, `WeRef`, `FaultResetCount` model the external
globals touched by `Fault`/`ResetFaults`. -/
structure LogsState where
  LogChan : ℤ
  LogLength : ℤ
  LogBase : List ℤ
  LogCount : ℤ
  LogSingle : ℤ
  LogPtr : List ℤ
  LogSkip : ℤ
  LogTrigger : ℤ
  OldTrigger : ℤ
  LogInit : ℤ
  LogSkipCount : ℤ
  LogAddr0 : ℤ
  LogAddr1 : ℤ
  LogAddr2 : ℤ
  LogAddr3 : ℤ
  LogAddr4 : ℤ
  LogAddr5 : ℤ
  LogAddr6 : ℤ
  LogAddr7 : ℤ
  LogAddr8 : ℤ
  LogAuto : ℤ
  LogBuf : List ℚ
  events : EventsState
  FaultWord : ℕ
  mainState : ℤ
  WeRef : ℚ
  pwmEnabled : Bool
  flag2 : Bool
  FaultResetCount : ℤ

/-- The initial state of the Logs.c globals (their C initializers), with
`LOG_SIZE` and `EVENT_SIZE` as parameters (they are fixed constants of the
missing `Setup.h`).  `mainState := READY` is modelled from the spec
(zero-initialized fault state, machine starts out of FAULT). -/
def InitialLogsState (logSize eventSize : ℕ) : LogsState :=
  { LogChan := 1
    LogLength := (logSize : ℤ)
    LogBase := List.replicate 9 0
    LogCount := 0
    LogSingle := 0
    LogPtr := List.replicate 9 0
    LogSkip := 0
    LogTrigger := 0
    OldTrigger := 0
    LogInit := 0
    LogSkipCount := 0
    LogAddr0 := 0, LogAddr1 := 0, LogAddr2 := 0, LogAddr3 := 0
    LogAddr4 := 0, LogAddr5 := 0, LogAddr6 := 0, LogAddr7 := 0
    LogAddr8 := 0
    LogAuto := 0
    LogBuf := List.replicate logSize 0
    events := InitEvents eventSize
    FaultWord := 0
    mainState := READY
    WeRef := 0
    pwmEnabled := true
    flag2 := false
    FaultResetCount := 0 }

/-- `Fault` (Logs.c lines 67-98).  `fcode` is a fault code 0..16; `data2`
the optional float argument; `(t1, t2)` the external timestamp used for
any event records this call writes.  `FaultWord` is a bitmask, set via
`0x01 << fcode`. -/
def Fault (fcode : ℕ) (data2 : ℚ) (t1 t2 : ℤ) (s : LogsState) : LogsState :=
  -- First thing, disable the PWM outputs
  let s := { s with pwmEnabled := false }
  -- Check if this is a new fault of this type
  let s := if s.FaultWord &&& (1 <<< fcode) = 0 then
      { s with events := LogEvent t1 t2 E_FAULT (fcode : ℤ) data2 s.events }
    else s
  -- Always set a bit in the fault word
  let s := { s with FaultWord := s.FaultWord ||| (1 <<< fcode) }
  -- Check if just arrived in fault state
  let s := if s.mainState ≠ FAULT then
      { s with mainState := FAULT
               events := LogEvent t1 t2 E_STATE FAULT 0 s.events }
    else s
  -- If auto triggering == 1 turn off data logging
  let s := if s.LogAuto = 1 then { s with LogTrigger := 0 } else s
  -- Reset the speed reference to zero
  { s with WeRef := 0 }

/-- `ResetFaults` (Logs.c lines 103-116): clear the fault word, log a reset
event, and if the machine was in FAULT log a state change and go READY;
finally raise the external fault-reset line (`FLAG2ON`,
`FaultResetCount = 20`). -/
def ResetFaults (t1 t2 : ℤ) (s : LogsState) : LogsState :=
  let s := { s with FaultWord := 0 }
  let s := { s with events := LogEvent t1 t2 E_RESET 0 0 s.events }
  let s := if s.mainState = FAULT then
      { s with events := LogEvent t1 t2 E_STATE READY 0 s.events
               mainState := READY }
    else s
  { s with flag2 := true, FaultResetCount := 20 }

/-- `DefaultLog` (Logs.c lines 151-173): case 1 binds the nine default
signals, sets 9 channels, circular mode, skip 20, auto triggering, and
requests a lazy re-initialization. -/
def DefaultLog (env : SignalAddrs) (i : ℤ) (s : LogsState) : LogsState :=
  if i = 1 then
    { s with
      LogAddr0 := env.IdRef
      LogAddr1 := env.IqRef
      LogAddr2 := env.RpmRef
      LogAddr3 := env.Id
      LogAddr4 := env.Iq
      LogAddr5 := env.RpmOut
      LogAddr6 := env.VdRef
      LogAddr7 := env.VqRef
      LogAddr8 := env.ThetaOut
      LogChan := 9
      LogSingle := 0
      LogSkip := 20
      LogAuto := 1
      LogInit := 1 }
  else s

/-- `InitLog` (Logs.c lines 177-198): stop the trigger, recompute
`LogLength = LOG_SIZE / LogChan`, repartition the channel base offsets,
reset counters, and rebind the nine channel pointers from the masked
`LogAddrN` values (`& 0x0000FFFF`). -/
def InitLog (s : LogsState) : LogsState :=
  let s := { s with LogTrigger := 0 }
  let s := { s with LogLength := (s.LogBuf.length : ℤ) / s.LogChan }
  let s := { s with LogBase :=
      (List.range s.LogChan.toNat).map (fun i => (i : ℤ) * s.LogLength) }
  { s with
    LogInit := 0
    LogCount := 0
    LogSkipCount := 0
    LogPtr := [s.LogAddr0 % 65536, s.LogAddr1 % 65536, s.LogAddr2 % 65536,
               s.LogAddr3 % 65536, s.LogAddr4 % 65536, s.LogAddr5 % 65536,
               s.LogAddr6 % 65536, s.LogAddr7 % 65536, s.LogAddr8 % 65536] }

/-- The per-channel recording loop of `UpdateLog` (Logs.c lines 222-224):
`LogBase[i][LogCount] = *(LogPtr[i])` for `i < LogChan`.  `sig` maps a
bound signal address to its current value (the external signal read). -/
def RecordChannels (sig : ℤ → ℚ) (s : LogsState) : List ℚ :=
  (List.range s.LogChan.toNat).foldl
    (fun buf i =>
      buf.set (s.LogBase.getD i 0 + s.LogCount).toNat (sig (s.LogPtr.getD i 0)))
    s.LogBuf

/-- Second phase of `UpdateLog` (Logs.c lines 212-240): service a pending
re-initialization, then record one sample set if triggered and not
skipped, advancing and wrapping the write index. -/
def UpdateLogRecord (sig : ℤ → ℚ) (s : LogsState) : LogsState :=
  -- Initialize a new number of channels
  let s := if s.LogInit ≠ 0 then InitLog s else s
  -- Record data when LogTrigger is non-zero
  if s.LogTrigger ≠ 0 then
    if s.LogSkipCount < s.LogSkip then
      { s with LogSkipCount := s.LogSkipCount + 1 }
    else
      let s := { s with LogSkipCount := 0 }
      -- Record data
      let s := { s with LogBuf := RecordChannels sig s }
      -- Increment data count
      let s := { s with LogCount := s.LogCount + 1 }
      -- Check for end of buffer
      let s : LogsState := if s.LogCount = s.LogLength then
          let s : LogsState := if s.LogSingle = 1 then { s with LogTrigger := 0 } else s
          { s with LogCount := 0 }
        else s
      -- Setting LogTrigger to a negative number will take data until it
      -- is incremented to zero
      if s.LogTrigger < 0 then { s with LogTrigger := s.LogTrigger + 1 } else s
  else s

/-- `UpdateLog` (Logs.c lines 202-242): emit a trigger-change event, update
`OldTrigger`, then run the record phase. -/
def UpdateLog (t1 t2 : ℤ) (sig : ℤ → ℚ) (s : LogsState) : LogsState :=
  -- Make eventlog entry if trigger has changed
  let s := if s.LogTrigger ≠ s.OldTrigger then
      { s with events := LogEvent t1 t2 E_DATALOG s.LogTrigger (s.LogSkip : ℚ)
                 s.events }
    else s
  let s := { s with OldTrigger := s.LogTrigger }
  UpdateLogRecord sig s


/-- Recording a list of event records in order (`LogEvent` once per
record, each record carrying its own externally supplied timestamp). -/
def EventsFold (es : List EventRec) (st : EventsState) : EventsState :=
  es.foldl (fun s e => LogEvent e.time1 e.time2 e.code e.data1 e.data2 s) st

/-- Number of fault-event (`E_FAULT`) records currently in the event ring. -/
def countFaultEvents (s : LogsState) : ℕ :=
  s.events.slots.countP (fun e => e.code == E_FAULT)

/-- Concrete single-shot logger state, one sample before the end of its
record, used by the C7 witness. -/
def c7state : LogsState :=
  { InitialLogsState 4 4 with
    LogTrigger := 1, OldTrigger := 1, LogSingle := 1, LogCount := 3 }


/-! ## Theorems -/

/-- `fabs` agrees with the mathematical absolute value. -/
theorem fabs_eq_abs (x : ℚ) : fabs x = |x| := by
  unfold fabs
  rcases lt_or_ge x 0 with h | h
  · simp [h, abs_of_neg h]
  · simp [not_lt.mpr h, abs_of_nonneg h]

/-- Literal scenario A from the repository behavior: alpha=0.5, beta=0,
period=1000 gives sector 1, no clipping, on-times (750, 250, 250). -/
example :
    UpdateSpaceVector (577350269/1000000000) (1/2) 0 1000 =
      { SvmSector := 1, SvmTx := 1/2, SvmTy := 0, SvmT0 := 1/2,
        SvmClip := 0, SvmK := 1, SvmOnA := 750, SvmOnB := 250,
        SvmOnC := 250 } := by
  norm_num [UpdateSpaceVector, SvmSectorOf, SvmTxTyPre, SvmClipped,
    SvmOnTimes, fabs]

/-! ## Claim C1: sector selection on the boundary -/

/-- The strict comparison means that on the boundary the middle-sector
branch is NOT taken. -/
theorem sector_boundary_not_middle (r a b : ℚ) (h : fabs a = fabs (b * r)) :
    ¬ fabs a < fabs (b * r) := by
  rw [h]
  exact lt_irrefl _

/-- C1 counterexample: at the concrete boundary input `alpha = r`,
`beta = 1` (with `r` the RECIP_SQRT3 value, so `|alpha| = |beta * r|`
and `beta ≥ 0`), `UpdateSpaceVector` selects sector 1, not the middle
sector 2 the claim requires. -/
theorem c1_claim_counterexample :
    fabs (577350269/1000000000 : ℚ) = fabs (1 * (577350269/1000000000 : ℚ))
      ∧ ((1:ℚ) ≥ 0)
      ∧ SvmSectorOf (577350269/1000000000) (577350269/1000000000) 1 ≠ 2 := by
  refine ⟨by norm_num [fabs], by norm_num, ?_⟩
  norm_num [SvmSectorOf, fabs]

/-- C1 (amended): on the sector boundary `|alpha| = |beta * RECIP_SQRT3|`
the strict `<` sends the tie to the OUTER sector, never the middle one:
sector 1 (alpha ≥ 0) or 3 (alpha < 0) in the beta ≥ 0 half-plane, and
sector 6 (alpha ≥ 0) or 4 (alpha < 0) in the beta < 0 half-plane. -/
theorem c1_boundary_ties_outer (r a b : ℚ) (h : fabs a = fabs (b * r)) :
    (b ≥ 0 → SvmSectorOf r a b = if a ≥ 0 then 1 else 3) ∧
    (¬ b ≥ 0 → SvmSectorOf r a b = if a ≥ 0 then 6 else 4) := by
  have hlt := sector_boundary_not_middle r a b h
  constructor <;> intro hb <;> simp [SvmSectorOf, hb, hlt]

/-- Witness for C1 (amended) at the boundary input `alpha = -r`, `beta = 1`. -/
theorem c1_witness :
    SvmSectorOf (577350269/1000000000) (-(577350269/1000000000)) 1 = 3 := by
  have h : fabs (-(577350269/1000000000) : ℚ)
      = fabs ((1:ℚ) * (577350269/1000000000 : ℚ)) := by
    norm_num [fabs]
  have h2 := (c1_boundary_ties_outer (577350269/1000000000)
    (-(577350269/1000000000)) 1 h).1 (by norm_num)
  rw [h2]
  norm_num

/-! ## Claim C4: overmodulation clamp -/

/-- C4: if the pre-clamp active-vector times satisfy `Tx + Ty > 1` then the
clip flag is set, `T0` becomes 0, `SvmK = 1/(Tx+Ty)` and the rescaled times
sum to exactly 1; otherwise the clip flag is clear and `SvmK = 1`.  In every
case `SvmK ≤ 1`. -/
theorem c4_clip_correct (r a b p : ℚ) :
    ((SvmTxTyPre r a b).1 + (SvmTxTyPre r a b).2 > 1 →
        (UpdateSpaceVector r a b p).SvmClip = 1 ∧
        (UpdateSpaceVector r a b p).SvmT0 = 0 ∧
        (UpdateSpaceVector r a b p).SvmK
          = 1 / ((SvmTxTyPre r a b).1 + (SvmTxTyPre r a b).2) ∧
        (UpdateSpaceVector r a b p).SvmTx + (UpdateSpaceVector r a b p).SvmTy
          = 1) ∧
    (¬ (SvmTxTyPre r a b).1 + (SvmTxTyPre r a b).2 > 1 →
        (UpdateSpaceVector r a b p).SvmClip = 0 ∧
        (UpdateSpaceVector r a b p).SvmK = 1) ∧
    (UpdateSpaceVector r a b p).SvmK ≤ 1 := by
  set tx0 := (SvmTxTyPre r a b).1 with htx
  set ty0 := (SvmTxTyPre r a b).2 with hty
  by_cases hc : tx0 + ty0 > 1
  · have hneg : 1 - tx0 - ty0 < 0 := by linarith
    have hpos : (0:ℚ) < tx0 + ty0 := by linarith
    have hne : tx0 + ty0 ≠ 0 := ne_of_gt hpos
    simp only [UpdateSpaceVector, SvmClipped, ← htx, ← hty, if_pos hneg]
    refine ⟨fun _ => ⟨trivial, trivial, trivial, ?_⟩, fun h => absurd hc h, ?_⟩
    · rw [← mul_add, one_div, inv_mul_cancel₀ hne]
    · rw [div_le_one hpos]
      linarith
  · have hnneg : ¬ (1 - tx0 - ty0 < 0) := by intro h; exact hc (by linarith)
    simp only [UpdateSpaceVector, SvmClipped, ← htx, ← hty, if_neg hnneg]
    exact ⟨fun h => absurd h hc, fun _ => ⟨trivial, trivial⟩, le_refl 1⟩

/-- Witness for C4 at the clipped input `alpha = 1`, `beta = 0` (scaled by
any `r`; here the RECIP_SQRT3 value), where the pre-clamp times sum to 1.5. -/
theorem c4_witness :
    ((SvmTxTyPre (577350269/1000000000) (3/2) 0).1
        + (SvmTxTyPre (577350269/1000000000) (3/2) 0).2 > 1) ∧
    (UpdateSpaceVector (577350269/1000000000) (3/2) 0 1000).SvmClip = 1 ∧
    (UpdateSpaceVector (577350269/1000000000) (3/2) 0 1000).SvmT0 = 0 ∧
    (UpdateSpaceVector (577350269/1000000000) (3/2) 0 1000).SvmTx
      + (UpdateSpaceVector (577350269/1000000000) (3/2) 0 1000).SvmTy = 1 := by
  have hgt : ((SvmTxTyPre (577350269/1000000000) (3/2) 0).1
      + (SvmTxTyPre (577350269/1000000000) (3/2) 0).2 > 1) := by
    norm_num [SvmTxTyPre, SvmSectorOf, fabs]
  have h := (c4_clip_correct (577350269/1000000000) (3/2) 0 1000).1 hgt
  exact ⟨hgt, h.1, h.2.1, h.2.2.2⟩

/-! ## Claim C5: duty bounds for the symmetric method -/

/-- `fabs` is nonnegative. -/
theorem fabs_nonneg (x : ℚ) : 0 ≤ fabs x := by
  rw [fabs_eq_abs]; exact abs_nonneg x

/-- A value is at least the negation of its `fabs`. -/
theorem neg_fabs_le (x : ℚ) : -fabs x ≤ x := by
  rw [fabs_eq_abs]; exact neg_abs_le x

/-- A value is at most its `fabs`. -/
theorem le_fabs (x : ℚ) : x ≤ fabs x := by
  rw [fabs_eq_abs]; exact le_abs_self x

/-- The middle sectors 2 and 5 are selected exactly when
`|alpha| < |beta * RECIP_SQRT3|`. -/
theorem svmSector_middle_iff (r a b : ℚ) :
    (SvmSectorOf r a b = 2 ∨ SvmSectorOf r a b = 5) ↔
      fabs a < fabs (b * r) := by
  by_cases hb : b ≥ 0 <;> by_cases hm : fabs a < fabs (b * r) <;>
    by_cases ha : a ≥ 0 <;> simp [SvmSectorOf, hb, hm, ha]

/-- Both pre-clamp active-vector times are nonnegative. -/
theorem svmTxTyPre_nonneg (r a b : ℚ) :
    0 ≤ (SvmTxTyPre r a b).1 ∧ 0 ≤ (SvmTxTyPre r a b).2 := by
  by_cases h : SvmSectorOf r a b = 2 ∨ SvmSectorOf r a b = 5
  · have hm := (svmSector_middle_iff r a b).mp h
    have h1 := neg_fabs_le a
    have h2 := le_fabs a
    constructor <;> (simp [SvmTxTyPre, h]; try linarith)
  · have hm : ¬ fabs a < fabs (b * r) := fun hc => h ((svmSector_middle_iff r a b).mpr hc)
    have hge := not_lt.mp hm
    have h0 := fabs_nonneg (b * r)
    constructor <;> (simp [SvmTxTyPre, h]; try linarith)

/-- After the overmodulation clamp, the three times are nonnegative and
sum to exactly 1. -/
theorem svmClipped_invariant (r a b : ℚ) :
    0 ≤ (SvmClipped r a b).1 ∧ 0 ≤ (SvmClipped r a b).2.1 ∧
      0 ≤ (SvmClipped r a b).2.2 ∧
      (SvmClipped r a b).1 + (SvmClipped r a b).2.1 + (SvmClipped r a b).2.2
        = 1 := by
  obtain ⟨htx, hty⟩ := svmTxTyPre_nonneg r a b
  unfold SvmClipped
  set tx0 := (SvmTxTyPre r a b).1 with hdtx
  set ty0 := (SvmTxTyPre r a b).2 with hdty
  by_cases hc : 1 - tx0 - ty0 < 0
  · have hpos : (0:ℚ) < tx0 + ty0 := by linarith
    have hne : tx0 + ty0 ≠ 0 := ne_of_gt hpos
    have hk : (0:ℚ) ≤ 1 / (tx0 + ty0) := by positivity
    simp only [if_pos hc]
    refine ⟨mul_nonneg hk htx, mul_nonneg hk hty, le_refl 0, ?_⟩
    rw [add_zero, ← mul_add, one_div, inv_mul_cancel₀ hne]
  · simp only [if_neg hc]
    refine ⟨htx, hty, by linarith, by ring⟩

/-- Generic bound: a period scaled by a coefficient in `[0, 1]` stays in
`[0, period]`. -/
theorem duty_coeff_bound (p c : ℚ) (hp : 0 ≤ p) (hc0 : 0 ≤ c) (hc1 : c ≤ 1) :
    0 ≤ p * c ∧ p * c ≤ p := by
  refine ⟨mul_nonneg hp hc0, ?_⟩
  calc p * c ≤ p * 1 := mul_le_mul_of_nonneg_left hc1 hp
  _ = p := mul_one p

/-- For every sector value (including the defensive default) the symmetric
on-time table stays within `[0, period]` whenever the three times are
nonnegative and sum to 1. -/
theorem svmOnTimes_bounds (sec : ℤ) (p tx ty t0 : ℚ) (hp : 0 ≤ p)
    (htx : 0 ≤ tx) (hty : 0 ≤ ty) (ht0 : 0 ≤ t0) (hsum : tx + ty + t0 = 1) :
    (0 ≤ (SvmOnTimes sec p tx ty t0).1 ∧ (SvmOnTimes sec p tx ty t0).1 ≤ p) ∧
    (0 ≤ (SvmOnTimes sec p tx ty t0).2.1 ∧
      (SvmOnTimes sec p tx ty t0).2.1 ≤ p) ∧
    (0 ≤ (SvmOnTimes sec p tx ty t0).2.2 ∧
      (SvmOnTimes sec p tx ty t0).2.2 ≤ p) := by
  unfold SvmOnTimes
  split_ifs <;>
    refine ⟨⟨?_, ?_⟩, ⟨?_, ?_⟩, ⟨?_, ?_⟩⟩ <;>
    first
      | linarith
      | exact (duty_coeff_bound p _ hp (by linarith) (by linarith)).1
      | exact (duty_coeff_bound p _ hp (by linarith) (by linarith)).2

/-- C5: for every input `(alpha, beta)` and every `period ≥ 0`, the three
on-times produced by `UpdateSpaceVector` with the symmetric method satisfy
`0 ≤ onA, onB, onC ≤ period`. -/
theorem c5_duty_bounds (r a b p : ℚ) (hp : 0 ≤ p) :
    (0 ≤ (UpdateSpaceVector r a b p).SvmOnA ∧
      (UpdateSpaceVector r a b p).SvmOnA ≤ p) ∧
    (0 ≤ (UpdateSpaceVector r a b p).SvmOnB ∧
      (UpdateSpaceVector r a b p).SvmOnB ≤ p) ∧
    (0 ≤ (UpdateSpaceVector r a b p).SvmOnC ∧
      (UpdateSpaceVector r a b p).SvmOnC ≤ p) := by
  obtain ⟨htx, hty, ht0, hsum⟩ := svmClipped_invariant r a b
  have h := svmOnTimes_bounds (SvmSectorOf r a b) p (SvmClipped r a b).1
    (SvmClipped r a b).2.1 (SvmClipped r a b).2.2 hp htx hty ht0 hsum
  simpa only [UpdateSpaceVector] using h

/-- Witness for C5 at the clipped scenario input `alpha = 0`, `beta = 1`,
`period = 1000`. -/
theorem c5_witness :
    ((0:ℚ) ≤ 1000) ∧
    (0 ≤ (UpdateSpaceVector (577350269/1000000000) 0 1 1000).SvmOnA ∧
      (UpdateSpaceVector (577350269/1000000000) 0 1 1000).SvmOnA ≤ 1000) := by
  have h := c5_duty_bounds (577350269/1000000000) 0 1 1000 (by norm_num)
  exact ⟨by norm_num, h.1⟩

/-! ## Claim C2: channel count bound -/

/-- C2 failing input: from the initial state, `DefaultLog(1)` sets
`LogChan = 9`, exceeding the 8-channel maximum asserted by the claim and
by Logs.c's own header comment ("divides up a block of RAM into 1 to 8
channels").  Every other reachable value of `LogChan` is the initial 1
(neither `InitLog` nor `UpdateLog` writes `LogChan`). -/
theorem c2_defaultLog_sets_nine_channels :
    (DefaultLog ⟨0, 0, 0, 0, 0, 0, 0, 0, 0⟩ 1 (InitialLogsState 2048 64)).LogChan
        = 9 ∧
    ¬ (DefaultLog ⟨0, 0, 0, 0, 0, 0, 0, 0, 0⟩ 1
        (InitialLogsState 2048 64)).LogChan ≤ 8 := by
  decide

/-! ## Claim C8: trigger-change events -/

/-- The record phase of `UpdateLog` never writes the event log. -/
theorem updateLogRecord_events (sig : ℤ → ℚ) (s : LogsState) :
    (UpdateLogRecord sig s).events = s.events := by
  simp only [UpdateLogRecord, InitLog]
  split_ifs <;> rfl

/-- C8: a tick on which the trigger differs from `OldTrigger` (its value
captured at the previous tick) writes exactly one `E_DATALOG` record —
carrying the new trigger value and the skip factor — at the current event
index, advancing it by one; a tick on which the trigger is unchanged
writes no event at all. -/
theorem c8_trigger_change_event (t1 t2 : ℤ) (sig : ℤ → ℚ) (s : LogsState) :
    (s.LogTrigger ≠ s.OldTrigger →
      (UpdateLog t1 t2 sig s).events.slots
        = s.events.slots.set s.events.index
            ⟨t1, t2, E_DATALOG, s.LogTrigger, (s.LogSkip : ℚ)⟩ ∧
      (UpdateLog t1 t2 sig s).events.index
        = if s.events.index + 1 = s.events.size then 0
          else s.events.index + 1) ∧
    (s.LogTrigger = s.OldTrigger →
      (UpdateLog t1 t2 sig s).events = s.events) := by
  constructor <;> intro h
  · constructor <;>
      simp only [UpdateLog, if_pos h, updateLogRecord_events, LogEvent]
  · have h2 : ¬ s.LogTrigger ≠ s.OldTrigger := by simpa using h
    simp only [UpdateLog, if_neg h2, updateLogRecord_events]

/-- Witness for C8: from the initial state with the trigger just raised to
1, the next tick logs one `E_DATALOG` record with data `(1, skip = 0)`. -/
theorem c8_witness :
    (UpdateLog 5 6 (fun _ => 7)
        { InitialLogsState 4 4 with LogTrigger := 1 }).events.slots
      = ((InitialLogsState 4 4).events.slots.set 0
          ⟨5, 6, E_DATALOG, 1, 0⟩) := by
  have h := (c8_trigger_change_event 5 6 (fun _ => 7)
    { InitialLogsState 4 4 with LogTrigger := 1 }).1 (by decide)
  exact h.1.trans (by decide)

/-! ## Claim C10: pending re-initialization stops recording -/

/-- C10: when `UpdateLog` services a pending reconfiguration
(`LogInit ≠ 0`), `InitLog` forces the trigger to 0, so no sample is
recorded on that tick (`LogBuf` unchanged, `LogCount` reset), and on any
later tick with the trigger still 0 nothing is recorded either. -/
theorem c10_init_stops_recording (t1 t2 : ℤ) (sig : ℤ → ℚ) (s : LogsState) :
    (s.LogInit ≠ 0 →
      (UpdateLog t1 t2 sig s).LogTrigger = 0 ∧
      (UpdateLog t1 t2 sig s).LogBuf = s.LogBuf ∧
      (UpdateLog t1 t2 sig s).LogInit = 0 ∧
      (UpdateLog t1 t2 sig s).LogCount = 0) ∧
    (s.LogInit = 0 → s.LogTrigger = 0 →
      (UpdateLog t1 t2 sig s).LogTrigger = 0 ∧
      (UpdateLog t1 t2 sig s).LogBuf = s.LogBuf ∧
      (UpdateLog t1 t2 sig s).LogCount = s.LogCount) := by
  constructor
  · intro hinit
    by_cases hch : s.LogTrigger ≠ s.OldTrigger <;>
      simp [UpdateLog, UpdateLogRecord, InitLog, hch, hinit]
  · intro hinit htrig
    by_cases hot : (0:ℤ) = s.OldTrigger <;>
      simp [UpdateLog, UpdateLogRecord, InitLog, htrig, hinit, hot]

/-- Witness for C10: a concrete state mid-recording with a pending
re-initialization comes out with the trigger stopped and the buffer
untouched. -/
theorem c10_witness :
    ((({ InitialLogsState 4 4 with
          LogTrigger := 1, OldTrigger := 1, LogInit := 1 } : LogsState).LogInit
        ≠ 0) : Prop) ∧
    (UpdateLog 5 6 (fun _ => 7)
      { InitialLogsState 4 4 with
        LogTrigger := 1, OldTrigger := 1, LogInit := 1 }).LogTrigger = 0 ∧
    (UpdateLog 5 6 (fun _ => 7)
      { InitialLogsState 4 4 with
        LogTrigger := 1, OldTrigger := 1, LogInit := 1 }).LogBuf
      = ({ InitialLogsState 4 4 with
          LogTrigger := 1, OldTrigger := 1, LogInit := 1 } : LogsState).LogBuf := by
  have h := (c10_init_stops_recording 5 6 (fun _ => 7)
    { InitialLogsState 4 4 with
      LogTrigger := 1, OldTrigger := 1, LogInit := 1 }).1 (by decide)
  exact ⟨by decide, h.1, h.2.1⟩

/-! ## Claim C7: buffer wrap, single-shot vs circular -/

/-- C7: when a sample is recorded and the write index reaches
`LogLength`, the index wraps to 0 in every case; the trigger is forced to
0 exactly in single-shot mode, while a non-single-shot logger keeps its
(positive) trigger, or counts a negative trigger up by one. -/
theorem c7_wrap_and_single_shot (t1 t2 : ℤ) (sig : ℤ → ℚ) (s : LogsState)
    (hInit : s.LogInit = 0) (hTrig : s.LogTrigger ≠ 0)
    (hSkip : ¬ s.LogSkipCount < s.LogSkip)
    (hEnd : s.LogCount + 1 = s.LogLength) :
    (UpdateLog t1 t2 sig s).LogCount = 0 ∧
    (s.LogSingle = 1 → (UpdateLog t1 t2 sig s).LogTrigger = 0) ∧
    (s.LogSingle ≠ 1 → 0 < s.LogTrigger →
      (UpdateLog t1 t2 sig s).LogTrigger = s.LogTrigger) ∧
    (s.LogSingle ≠ 1 → s.LogTrigger < 0 →
      (UpdateLog t1 t2 sig s).LogTrigger = s.LogTrigger + 1) := by
  refine ⟨?_, fun hs1 => ?_, fun hs1 hpos => ?_, fun hs1 hneg => ?_⟩
  · by_cases hch : s.LogTrigger ≠ s.OldTrigger <;>
      by_cases hs1 : s.LogSingle = 1 <;>
      by_cases hneg : s.LogTrigger < 0 <;>
      simp [UpdateLog, UpdateLogRecord, hch, hInit, hTrig, hSkip, hEnd, hs1,
        hneg]
  · by_cases hch : s.LogTrigger ≠ s.OldTrigger <;>
      simp [UpdateLog, UpdateLogRecord, hch, hInit, hTrig, hSkip, hEnd, hs1]
  · have hneg : ¬ s.LogTrigger < 0 := by linarith
    by_cases hch : s.LogTrigger ≠ s.OldTrigger <;>
      simp [UpdateLog, UpdateLogRecord, hch, hInit, hTrig, hSkip, hEnd, hs1,
        hneg]
  · by_cases hch : s.LogTrigger ≠ s.OldTrigger <;>
      simp [UpdateLog, UpdateLogRecord, hch, hInit, hTrig, hSkip, hEnd, hs1,
        hneg]

/-- Witness for C7: a single-shot logger at the last slot stops (trigger
forced to 0) and wraps its write index to 0. -/
theorem c7_witness :
    (UpdateLog 5 6 (fun _ => 7) c7state).LogCount = 0 ∧
    (UpdateLog 5 6 (fun _ => 7) c7state).LogTrigger = 0 := by
  have h := c7_wrap_and_single_shot 5 6 (fun _ => 7) c7state
    (by decide) (by decide) (by decide) (by decide)
  exact ⟨h.1, h.2.1 (by decide)⟩

/-! ## Claim C9: reset semantics -/

/-- C9: `ResetFaults` clears the entire fault bitmask and logs a reset
event; exactly when the machine state was FAULT it also transitions to
READY and logs a state-change event, so a call made while already READY
(or any non-FAULT state) appends only the reset event.  The window
hypothesis keeps the two writes inside the ring without wraparound so the
appended records can be named by index. -/
theorem c9_resetFaults_semantics (t1 t2 : ℤ) (s : LogsState)
    (hroom : s.events.index + 2 < s.events.size) :
    (ResetFaults t1 t2 s).FaultWord = 0 ∧
    (s.mainState = FAULT →
      (ResetFaults t1 t2 s).mainState = READY ∧
      (ResetFaults t1 t2 s).events.slots
        = (s.events.slots.set s.events.index ⟨t1, t2, E_RESET, 0, 0⟩).set
            (s.events.index + 1) ⟨t1, t2, E_STATE, READY, 0⟩ ∧
      (ResetFaults t1 t2 s).events.index = s.events.index + 2) ∧
    (s.mainState ≠ FAULT →
      (ResetFaults t1 t2 s).mainState = s.mainState ∧
      (ResetFaults t1 t2 s).events.slots
        = s.events.slots.set s.events.index ⟨t1, t2, E_RESET, 0, 0⟩ ∧
      (ResetFaults t1 t2 s).events.index = s.events.index + 1) := by
  have h1 : ¬ (s.events.index + 1 = s.events.size) := by omega
  have h2 : ¬ (s.events.index + 1 + 1 = s.events.size) := by omega
  by_cases hms : s.mainState = FAULT <;>
    simp [ResetFaults, LogEvent, hms, h1, h2]

/-- Witness for C9 from the initial (READY) state: fault word cleared,
state unchanged, index advanced by one (only the reset event). -/
theorem c9_witness :
    (ResetFaults 5 6 (InitialLogsState 4 4)).FaultWord = 0 ∧
    (ResetFaults 5 6 (InitialLogsState 4 4)).mainState
      = (InitialLogsState 4 4).mainState ∧
    (ResetFaults 5 6 (InitialLogsState 4 4)).events.index = 1 := by
  have h := c9_resetFaults_semantics 5 6 (InitialLogsState 4 4) (by decide)
  have h3 := h.2.2 (by decide)
  exact ⟨h.1, h3.1, h3.2.2.trans (by decide)⟩

/-! ## Claim C6: event ring wraparound -/

/-- Reading back the slot just overwritten yields the new record. -/
theorem getD_set_self (l : List EventRec) (i : ℕ) (a : EventRec)
    (h : i < l.length) : (l.set i a).getD i zeroEventRec = a := by
  simp [List.getD_eq_getElem?_getD, List.getElem?_set_self h]

/-- Overwriting one slot leaves every other slot unchanged. -/
theorem getD_set_ne (l : List EventRec) (i k : ℕ) (a : EventRec)
    (h : i ≠ k) : (l.set i a).getD k zeroEventRec = l.getD k zeroEventRec := by
  simp [List.getD_eq_getElem?_getD, List.getElem?_set_ne h]

/-- Folding `LogEvent` over a window that fits inside the ring: sizes are
preserved, the index advances by the number of records (wrapping to 0
exactly when it lands on the capacity), and the written slots hold the
recorded events in order while all other slots are untouched. -/
theorem eventsFold_window (es : List EventRec) :
    ∀ st : EventsState, st.slots.length = st.size → st.index < st.size →
      st.index + es.length ≤ st.size →
      (EventsFold es st).size = st.size ∧
      (EventsFold es st).slots.length = st.size ∧
      ((EventsFold es st).index
        = if st.index + es.length = st.size then 0
          else st.index + es.length) ∧
      ∀ k, (EventsFold es st).slots.getD k zeroEventRec
        = if st.index ≤ k ∧ k < st.index + es.length
          then es.getD (k - st.index) zeroEventRec
          else st.slots.getD k zeroEventRec := by
  induction es with
  | nil =>
    intro st hlen hidx _
    refine ⟨rfl, hlen, ?_, ?_⟩
    · have h : ¬ (st.index = st.size) := by omega
      simp [EventsFold, h]
    · intro k
      have h : ¬ (st.index ≤ k ∧ k < st.index) := by omega
      simp [EventsFold, h]
  | cons e l ih =>
    intro st hlen hidx hle
    have hfold : EventsFold (e :: l) st
        = EventsFold l (LogEvent e.time1 e.time2 e.code e.data1 e.data2 st) := by
      simp [EventsFold]
    by_cases hwrap : st.index + 1 = st.size
    · -- the single record e lands on the last slot and the index wraps
      have hl0 : l.length = 0 := by
        simp only [List.length_cons] at hle
        omega
      have hlnil : l = [] := List.length_eq_zero.mp hl0
      subst hlnil
      rw [hfold]
      refine ⟨rfl, by simpa [EventsFold, LogEvent] using hlen, ?_, ?_⟩
      · simp only [EventsFold, List.foldl_nil, LogEvent, List.length_cons,
          List.length_nil]
      · intro k
        simp only [EventsFold, List.foldl_nil, LogEvent, List.length_cons,
          List.length_nil]
        by_cases hk : k = st.index
        · subst hk
          have hcond : st.index ≤ st.index ∧ st.index < st.index + (0 + 1) := by
            omega
          rw [if_pos hcond]
          have hset := getD_set_self st.slots st.index
            ⟨e.time1, e.time2, e.code, e.data1, e.data2⟩ (by omega)
          simpa using hset
        · have hcond : ¬ (st.index ≤ k ∧ k < st.index + (0 + 1)) := by omega
          rw [if_neg hcond]
          exact getD_set_ne st.slots st.index k _ (fun h => hk h.symm)
    · -- no wrap at this step; apply the induction hypothesis
      have hidx1 : st.index + 1 < st.size := by
        simp only [List.length_cons] at hle
        omega
      obtain ⟨ih1, ih2, ih3, ih4⟩ :=
        ih (LogEvent e.time1 e.time2 e.code e.data1 e.data2 st)
          (by simpa [LogEvent] using hlen)
          (by simp [LogEvent, hwrap]; omega)
          (by
            simp only [List.length_cons] at hle
            simp [LogEvent, hwrap]
            omega)
      rw [hfold]
      have hstIdx : (LogEvent e.time1 e.time2 e.code e.data1 e.data2 st).index
          = st.index + 1 := by
        simp [LogEvent, hwrap]
      refine ⟨ih1, ih2, ?_, ?_⟩
      · have hstSize :
            (LogEvent e.time1 e.time2 e.code e.data1 e.data2 st).size
              = st.size := rfl
        rw [ih3, hstIdx, hstSize]
        simp only [List.length_cons]
        split_ifs <;> omega
      · intro k
        rw [ih4 k, hstIdx]
        simp only [List.length_cons, LogEvent]
        by_cases hk : k = st.index
        · subst hk
          have h1 : ¬ (st.index + 1 ≤ st.index ∧
              st.index < st.index + 1 + l.length) := by omega
          have h2 : st.index ≤ st.index ∧
              st.index < st.index + (l.length + 1) := by omega
          rw [if_neg h1, if_pos h2]
          have hset := getD_set_self st.slots st.index
            ⟨e.time1, e.time2, e.code, e.data1, e.data2⟩ (by omega)
          simpa using hset
        · by_cases hwin : st.index + 1 ≤ k ∧ k < st.index + 1 + l.length
          · have h2 : st.index ≤ k ∧ k < st.index + (l.length + 1) := by omega
            rw [if_pos hwin, if_pos h2]
            have hm : k - st.index = (k - (st.index + 1)) + 1 := by omega
            rw [hm, List.getD_cons_succ]
          · have h2 : ¬ (st.index ≤ k ∧ k < st.index + (l.length + 1)) := by
              rintro ⟨ha, hb⟩
              exact hwin ⟨by omega, by omega⟩
            rw [if_neg hwin, if_neg h2]
            exact getD_set_ne st.slots st.index k _ (fun h => hk h.symm)

/-- C6: starting from a freshly initialized event log of capacity `n ≥ 2`,
recording `n + 1` events always succeeds and leaves the ring holding the
most recent `n` records — slot 0 overwritten by the `(n+1)`-th record,
slots `1..n-1` holding records `2..n` — with the write index back at 1. -/
theorem c6_event_ring_wraparound (n : ℕ) (hn : 2 ≤ n) (es : List EventRec)
    (hlen : es.length = n + 1) :
    (EventsFold es (InitEvents n)).index = 1 ∧
    (EventsFold es (InitEvents n)).slots.length = n ∧
    (EventsFold es (InitEvents n)).slots.getD 0 zeroEventRec
      = es.getD n zeroEventRec ∧
    (∀ i, 1 ≤ i → i < n →
      (EventsFold es (InitEvents n)).slots.getD i zeroEventRec
        = es.getD i zeroEventRec) := by
  obtain (rfl | ⟨L, b, rfl⟩) := es.eq_nil_or_concat
  · simp at hlen
  · rw [List.concat_eq_append] at hlen ⊢
    have hL : L.length = n := by simpa using hlen
    obtain ⟨hw1, hw2, hw3, hw4⟩ :=
      eventsFold_window L (InitEvents n)
        (by simp [InitEvents]) (by simp [InitEvents]; omega)
        (by simp [InitEvents, hL])
    have hfold : EventsFold (L ++ [b]) (InitEvents n)
        = LogEvent b.time1 b.time2 b.code b.data1 b.data2
            (EventsFold L (InitEvents n)) := by
      simp [EventsFold, List.foldl_append]
    have hMidx : (EventsFold L (InitEvents n)).index = 0 := by
      rw [hw3]
      simp [InitEvents, hL]
    have hMsize : (EventsFold L (InitEvents n)).size = n := by
      rw [hw1]
      rfl
    rw [hfold]
    refine ⟨?_, ?_, ?_, ?_⟩
    · simp [LogEvent, hMidx, hMsize]
      omega
    · simpa [LogEvent, InitEvents] using hw2
    · simp only [LogEvent, hMidx]
      have hget := getD_set_self (EventsFold L (InitEvents n)).slots 0
        ⟨b.time1, b.time2, b.code, b.data1, b.data2⟩ (by rw [hw2]; omega)
      have hrhs : (L ++ [b]).getD n zeroEventRec = b := by
        rw [← hL]
        simp [List.getD_eq_getElem?_getD, List.getElem?_concat_length]
      rw [hrhs]
      simpa using hget
    · intro i h1 h2
      simp only [LogEvent, hMidx]
      have hne : (0 : ℕ) ≠ i := by omega
      rw [getD_set_ne _ _ _ _ hne, hw4 i]
      have hcond : (InitEvents n).index ≤ i ∧
          i < (InitEvents n).index + L.length := by
        simp [InitEvents, hL]
        omega
      rw [if_pos hcond]
      have : (L ++ [b]).getD i zeroEventRec = L.getD i zeroEventRec := by
        simp [List.getD_eq_getElem?_getD,
          List.getElem?_append_left (by omega : i < L.length)]
      rw [this]
      simp [InitEvents]

/-- Witness for C6 with capacity 2 and three concrete events. -/
theorem c6_witness :
    (EventsFold [⟨1, 1, E_START, 0, 0⟩, ⟨2, 2, E_STOP, 0, 0⟩,
        ⟨3, 3, E_PARAM, 0, 0⟩] (InitEvents 2)).index = 1 ∧
    (EventsFold [⟨1, 1, E_START, 0, 0⟩, ⟨2, 2, E_STOP, 0, 0⟩,
        ⟨3, 3, E_PARAM, 0, 0⟩] (InitEvents 2)).slots.getD 0 zeroEventRec
      = ⟨3, 3, E_PARAM, 0, 0⟩ := by
  have h := c6_event_ring_wraparound 2 (by decide)
    [⟨1, 1, E_START, 0, 0⟩, ⟨2, 2, E_STOP, 0, 0⟩, ⟨3, 3, E_PARAM, 0, 0⟩]
    (by decide)
  exact ⟨h.1, h.2.2.1.trans (by decide)⟩

/-! ## Claim C3: fault de-duplication -/

set_option maxRecDepth 4000

/-- A replicated slot that does not satisfy the predicate contributes no
count. -/
theorem countP_replicate_zero (p : EventRec → Bool) (z : EventRec)
    (h : p z = false) (n : ℕ) : (List.replicate n z).countP p = 0 := by
  induction n with
  | zero => simp
  | succ k ih => simp [List.replicate_succ, List.countP_cons, h, ih]

/-- Distinct fault codes own distinct bits: their masks do not overlap. -/
theorem two_pow_and_two_pow_of_ne {a b : ℕ} (h : a ≠ b) :
    (2 ^ a) &&& (2 ^ b) = 0 := by
  apply Nat.eq_of_testBit_eq
  intro i
  rw [Nat.testBit_and, Nat.zero_testBit]
  by_cases hi : i = a
  · subst hi
    rw [Nat.testBit_two_pow_of_ne (Ne.symm h)]
    simp
  · rw [Nat.testBit_two_pow_of_ne (fun hh => hi hh.symm)]
    simp

/-- C3: from a state with no latched faults and a fresh event log (capacity
`k + 4`), asserting the same fault code twice leaves exactly one
fault-event record and the code's bit set; asserting two distinct codes
leaves two fault-event records and both bits set. -/
theorem c3_fault_dedup (fc1 fc2 : ℕ) (x y : ℚ) (t1 t2 t3 t4 : ℤ)
    (s : LogsState) (k : ℕ) (hev : s.events = InitEvents (k + 4))
    (hfw : s.FaultWord = 0) (hr1 : fc1 ≤ 16) (hr2 : fc2 ≤ 16) :
    (countFaultEvents (Fault fc1 y t3 t4 (Fault fc1 x t1 t2 s)) = 1 ∧
      Nat.testBit (Fault fc1 y t3 t4 (Fault fc1 x t1 t2 s)).FaultWord fc1
        = true) ∧
    (fc1 ≠ fc2 →
      countFaultEvents (Fault fc2 y t3 t4 (Fault fc1 x t1 t2 s)) = 2 ∧
      Nat.testBit (Fault fc2 y t3 t4 (Fault fc1 x t1 t2 s)).FaultWord fc1
        = true ∧
      Nat.testBit (Fault fc2 y t3 t4 (Fault fc1 x t1 t2 s)).FaultWord fc2
        = true) := by
  have hcond1 : s.FaultWord &&& (1 <<< fc1) = 0 := by simp [hfw]
  have hfw1 : (Fault fc1 x t1 t2 s).FaultWord = 2 ^ fc1 := by
    by_cases hms : s.mainState = FAULT <;>
      simp [Fault, hcond1, hms, hfw, Nat.one_shiftLeft, apply_ite]
  have hms1 : (Fault fc1 x t1 t2 s).mainState = FAULT := by
    by_cases hms : s.mainState = FAULT <;> simp [Fault, hcond1, hms, apply_ite]
  have hev1 : (Fault fc1 x t1 t2 s).events
      = if s.mainState = FAULT
        then LogEvent t1 t2 E_FAULT (fc1 : ℤ) x (InitEvents (k + 4))
        else LogEvent t1 t2 E_STATE FAULT 0
          (LogEvent t1 t2 E_FAULT (fc1 : ℤ) x (InitEvents (k + 4))) := by
    by_cases hms : s.mainState = FAULT <;> simp [Fault, hcond1, hms, hev, apply_ite]
  set s1 := Fault fc1 x t1 t2 s with hs1
  have hcount1 :
      ((LogEvent t1 t2 E_FAULT (fc1 : ℤ) x (InitEvents (k + 4))).slots).countP
        (fun e => e.code == E_FAULT) = 1 := by
    have hsl : (LogEvent t1 t2 E_FAULT (fc1 : ℤ) x (InitEvents (k + 4))).slots
        = ⟨t1, t2, E_FAULT, (fc1 : ℤ), x⟩ :: zeroEventRec :: zeroEventRec ::
            zeroEventRec :: List.replicate k zeroEventRec := rfl
    rw [hsl]
    simp [List.countP_cons,
      countP_replicate_zero (fun e => e.code == E_FAULT) zeroEventRec rfl k,
      zeroEventRec, E_FAULT, E_STATE]
  have hcount2 :
      ((LogEvent t1 t2 E_STATE FAULT 0
          (LogEvent t1 t2 E_FAULT (fc1 : ℤ) x (InitEvents (k + 4)))).slots).countP
        (fun e => e.code == E_FAULT) = 1 := by
    have hsl : (LogEvent t1 t2 E_STATE FAULT 0
          (LogEvent t1 t2 E_FAULT (fc1 : ℤ) x (InitEvents (k + 4)))).slots
        = ⟨t1, t2, E_FAULT, (fc1 : ℤ), x⟩ :: ⟨t1, t2, E_STATE, FAULT, 0⟩ ::
            zeroEventRec :: zeroEventRec :: List.replicate k zeroEventRec := rfl
    rw [hsl]
    simp [List.countP_cons,
      countP_replicate_zero (fun e => e.code == E_FAULT) zeroEventRec rfl k,
      zeroEventRec, E_FAULT, E_STATE]
  constructor
  · -- asserting the same code twice
    have hcond2 : ¬ (s1.FaultWord &&& (1 <<< fc1) = 0) := by
      rw [hfw1, Nat.one_shiftLeft, Nat.and_self]
      have := Nat.two_pow_pos fc1
      omega
    have hev2 : (Fault fc1 y t3 t4 s1).events
        = s1.events := by
      simp [Fault, hcond2, hms1, apply_ite]
    have hfw2 : (Fault fc1 y t3 t4 s1).FaultWord
        = 2 ^ fc1 := by
      simp [Fault, hcond2, hms1, hfw1, Nat.one_shiftLeft, apply_ite]
    refine ⟨?_, ?_⟩
    · rw [countFaultEvents, hev2, hev1]
      by_cases hms : s.mainState = FAULT <;> simp only [hms, ite_true,
        ite_false, if_true, if_false, hcount1, hcount2]
    · rw [hfw2]
      exact Nat.testBit_two_pow_self
  · -- asserting two distinct codes
    intro hne
    have hcond2 : s1.FaultWord &&& (1 <<< fc2) = 0 := by
      rw [hfw1, Nat.one_shiftLeft]
      exact two_pow_and_two_pow_of_ne hne
    have hev2 : (Fault fc2 y t3 t4 s1).events
        = LogEvent t3 t4 E_FAULT (fc2 : ℤ) y s1.events := by
      simp [Fault, hcond2, hms1, apply_ite]
    have hfw2 : (Fault fc2 y t3 t4 s1).FaultWord
        = 2 ^ fc1 ||| 2 ^ fc2 := by
      have h0 : (Fault fc2 y t3 t4 s1).FaultWord
          = s1.FaultWord ||| (1 <<< fc2) := by
        simp [Fault, hcond2, hms1, apply_ite]
      rw [h0, hfw1, Nat.one_shiftLeft]
    have hcount3 :
        ((LogEvent t3 t4 E_FAULT (fc2 : ℤ) y
            (LogEvent t1 t2 E_FAULT (fc1 : ℤ) x (InitEvents (k + 4)))).slots).countP
          (fun e => e.code == E_FAULT) = 2 := by
      have hsl : (LogEvent t3 t4 E_FAULT (fc2 : ℤ) y
            (LogEvent t1 t2 E_FAULT (fc1 : ℤ) x (InitEvents (k + 4)))).slots
          = ⟨t1, t2, E_FAULT, (fc1 : ℤ), x⟩ :: ⟨t3, t4, E_FAULT, (fc2 : ℤ), y⟩ ::
              zeroEventRec :: zeroEventRec :: List.replicate k zeroEventRec := rfl
      rw [hsl]
      simp [List.countP_cons,
        countP_replicate_zero (fun e => e.code == E_FAULT) zeroEventRec rfl k,
        zeroEventRec, E_FAULT, E_STATE]
    have hcount4 :
        ((LogEvent t3 t4 E_FAULT (fc2 : ℤ) y
            (LogEvent t1 t2 E_STATE FAULT 0
              (LogEvent t1 t2 E_FAULT (fc1 : ℤ) x (InitEvents (k + 4))))).slots).countP
          (fun e => e.code == E_FAULT) = 2 := by
      have hsl : (LogEvent t3 t4 E_FAULT (fc2 : ℤ) y
            (LogEvent t1 t2 E_STATE FAULT 0
              (LogEvent t1 t2 E_FAULT (fc1 : ℤ) x (InitEvents (k + 4))))).slots
          = ⟨t1, t2, E_FAULT, (fc1 : ℤ), x⟩ :: ⟨t1, t2, E_STATE, FAULT, 0⟩ ::
              ⟨t3, t4, E_FAULT, (fc2 : ℤ), y⟩ :: zeroEventRec ::
              List.replicate k zeroEventRec := rfl
      rw [hsl]
      simp [List.countP_cons,
        countP_replicate_zero (fun e => e.code == E_FAULT) zeroEventRec rfl k,
        zeroEventRec, E_FAULT, E_STATE]
    refine ⟨?_, ?_, ?_⟩
    · rw [countFaultEvents, hev2, hev1]
      by_cases hms : s.mainState = FAULT <;> simp only [hms, ite_true,
        ite_false, if_true, if_false, hcount3, hcount4]
    · rw [hfw2]
      simp [Nat.testBit_or, Nat.testBit_two_pow_self]
    · rw [hfw2]
      simp [Nat.testBit_or, Nat.testBit_two_pow_self]

/-- Witness for C3 with codes `F_OVERCURRENT` (1) and `F_OVERSPEED` (2)
from the initial state. -/
theorem c3_witness :
    countFaultEvents (Fault 1 0 3 4 (Fault 1 0 1 2 (InitialLogsState 4 4)))
      = 1 ∧
    countFaultEvents (Fault 2 0 3 4 (Fault 1 0 1 2 (InitialLogsState 4 4)))
      = 2 := by
  have h := c3_fault_dedup 1 2 0 0 1 2 3 4 (InitialLogsState 4 4) 0
    (by decide) (by decide) (by decide) (by decide)
  exact ⟨h.1.1, (h.2 (by decide)).1⟩
